import Mathlib

/-! # aesa_1d: closed-form formulas of a one-dimensional AESA radar model

Shallow embedding of `src/aesa_1d.hpp`.

Conventions of the embedding:

* a C++ `double` is an exact real number (`ℝ`); rounding of the machine
  arithmetic is not part of the model;
* a C++ `int` is an integer (`ℤ`); the source only ever converts an `int`
  to `double` and performs no integer arithmetic, so no wrap-around can occur;
* a result that may be IEEE not-a-number is an `Option ℝ`, `none` standing
  for NaN;
* `std::sin` and `std::cos` are `Real.sin` and `Real.cos`; `std::asin` is
  `asin` below, which is NaN outside `[-1, 1]`;
* `/` is the division of `ℝ`.  For a zero divisor the source produces an IEEE
  infinity or NaN, which is outside the model (`ℝ` gives `0` there); the data
  model of the library has every divisor (wavelength, spacing, element count,
  range) positive.
-/

namespace aesa_1d

/-! ## Library functions used by the source -/

/-- The C library `std::asin`: a domain error (NaN) outside `[-1, 1]`,
the principal value in `[-π/2, π/2]` inside. -/
noncomputable def asin (x : ℝ) : Option ℝ :=
  if x < -1 ∨ 1 < x then none else some (Real.arcsin x)

/-- The C++17 `std::clamp(v, lo, hi)`: `(v < lo) ? lo : (hi < v) ? hi : v`. -/
noncomputable def clamp (v lo hi : ℝ) : ℝ :=
  if v < lo then lo else if hi < v then hi else v

/-! ## Constants -/

/-- The constant `M_PI_RAD = 3.1415927`. -/
noncomputable def M_PI_RAD : ℝ := 3.1415927

/-- The constant `m_euler_number = 2.71828`. -/
noncomputable def m_euler_number : ℝ := 2.71828

/-! ## Basic wave helpers -/

/-- The function `wavelength_from_velocity`: `v / f`. -/
noncomputable def wavelength_from_velocity (wave_velocity_ft_per_sec frequency_hz : ℝ) : ℝ :=
  wave_velocity_ft_per_sec / frequency_hz

/-- The function `wavenumber_from_wavelength`: `2.0 * M_PI_RAD / wavelength_ft`. -/
noncomputable def wavenumber_from_wavelength (wavelength_ft : ℝ) : ℝ :=
  2.0 * M_PI_RAD / wavelength_ft

/-! ## ULA phase and array factor -/

/-- The function `calculate_u`: `k * d * (sin ψ - sin θ)`. -/
noncomputable def calculate_u (steer_angle_rad observation_angle_rad
    wavenumber_rad_per_ft element_spacing_ft : ℝ) : ℝ :=
  wavenumber_rad_per_ft * element_spacing_ft *
    (Real.sin steer_angle_rad - Real.sin observation_angle_rad)

/-- The function `array_factor_from_u`: the absolute value of the product
`sin(half_u) * sin(num_elements * half_u)` with `half_u = 0.5 * u`. -/
noncomputable def array_factor_from_u (u : ℝ) (num_elements : ℤ) : ℝ :=
  let half_u : ℝ := 0.5 * u
  let sin_half_u : ℝ := Real.sin half_u
  let sin_N_half_u : ℝ := Real.sin ((num_elements : ℝ) * half_u)
  let product : ℝ := sin_half_u * sin_N_half_u
  |product|

/-- The function `is_null_direction`: `|sin(0.5 * N * u)| < 1e-12`. -/
noncomputable def is_null_direction (u : ℝ) (num_elements : ℤ) : Bool :=
  let arg : ℝ := 0.5 * (num_elements : ℝ) * u
  decide (|Real.sin arg| < 1e-12)

/-- The function `main_lobe_angle_rad`: the identity. -/
def main_lobe_angle_rad (steer_angle_rad : ℝ) : ℝ :=
  steer_angle_rad

/-! ## Beamwidth formulas -/

/-- The function `FNBW_rad`: `(2.0 * λ) / (N * d)`. -/
noncomputable def FNBW_rad (wavelength_ft : ℝ) (num_elements : ℤ)
    (element_spacing_ft : ℝ) : ℝ :=
  (2.0 * wavelength_ft) / ((num_elements : ℝ) * element_spacing_ft)

/-- The function `HPBW_rad`: `(2.0 * λ) / (N * d * cos θ)`. -/
noncomputable def HPBW_rad (wavelength_ft : ℝ) (num_elements : ℤ)
    (element_spacing_ft observation_angle_rad : ℝ) : ℝ :=
  (2.0 * wavelength_ft) /
    ((num_elements : ℝ) * element_spacing_ft * Real.cos observation_angle_rad)

/-- The function `HPBW_broadside_rad`: `(2.0 * λ) / (N * d)`. -/
noncomputable def HPBW_broadside_rad (wavelength_ft : ℝ) (num_elements : ℤ)
    (element_spacing_ft : ℝ) : ℝ :=
  (2.0 * wavelength_ft) / ((num_elements : ℝ) * element_spacing_ft)

/-! ## Grating lobes -/

/-- The right-hand side `sin ψ + m * (λ / d)` computed by
`grating_lobe_angle_rad` (its local `rhs`). -/
noncomputable def grating_lobe_rhs (steer_angle_rad : ℝ) (m : ℤ)
    (wavelength_ft element_spacing_ft : ℝ) : ℝ :=
  Real.sin steer_angle_rad + (m : ℝ) * (wavelength_ft / element_spacing_ft)

/-- The function `grating_lobe_angle_rad`: NaN when `rhs < -1.0 || rhs > 1.0`,
otherwise `std::asin(rhs)`. -/
noncomputable def grating_lobe_angle_rad (steer_angle_rad : ℝ) (m : ℤ)
    (wavelength_ft element_spacing_ft : ℝ) : Option ℝ :=
  let rhs : ℝ := grating_lobe_rhs steer_angle_rad m wavelength_ft element_spacing_ft
  if rhs < -1.0 ∨ rhs > 1.0 then none else asin rhs

/-- The function `spacing_is_safe_no_grating_lobes`: `d <= 0.5 * λ`. -/
noncomputable def spacing_is_safe_no_grating_lobes
    (element_spacing_ft wavelength_ft : ℝ) : Bool :=
  decide (element_spacing_ft ≤ 0.5 * wavelength_ft)

/-! ## Array gain -/

/-- The function `array_gain_linear`: the element count as a real. -/
def array_gain_linear (num_elements : ℤ) : ℝ :=
  (num_elements : ℝ)

/-- The C library `std::log10`: no finite value for `x ≤ 0` (`-∞` at `0`, NaN
below), the base-10 logarithm for `x > 0`; `none` stands for the non-finite
results. -/
noncomputable def log10 (x : ℝ) : Option ℝ :=
  if x ≤ 0 then none else some (Real.logb 10 x)

/-- The function `array_gain_dB`: `10.0 * std::log10(N)`. -/
noncomputable def array_gain_dB (num_elements : ℤ) : Option ℝ :=
  (log10 (num_elements : ℝ)).map (fun l => 10.0 * l)

/-! ## Radar range equation -/

/-- The function `radar_received_power`:
`(Pt * G² * λ² * σ) / ((4 * M_PI_RAD)³ * R⁴)`, with the products written
out as in the source. -/
noncomputable def radar_received_power (transmit_power array_gain_linear_value
    wavelength_ft rcs range_ft : ℝ) : ℝ :=
  let four_pi : ℝ := 4.0 * M_PI_RAD
  let four_pi_cub : ℝ := four_pi * four_pi * four_pi
  let G2 : ℝ := array_gain_linear_value * array_gain_linear_value
  let lambda2 : ℝ := wavelength_ft * wavelength_ft
  let R4 : ℝ := range_ft * range_ft * range_ft * range_ft
  (transmit_power * G2 * lambda2 * rcs) / (four_pi_cub * R4)

/-! ## Doppler -/

/-- The function `doppler_frequency`: `(2.0 * v_r) / λ`. -/
noncomputable def doppler_frequency (radial_velocity_ft_per_sec wavelength_ft : ℝ) : ℝ :=
  (2.0 * radial_velocity_ft_per_sec) / wavelength_ft

/-- The function `doppler_phase_delta`: `2.0 * M_PI_RAD * f_d * t`. -/
noncomputable def doppler_phase_delta (doppler_freq_hz time_seconds : ℝ) : ℝ :=
  2.0 * M_PI_RAD * doppler_freq_hz * time_seconds

/-- The function `doppler_phase_instant`: `φ0 + 2.0 * M_PI_RAD * f_d * t`. -/
noncomputable def doppler_phase_instant (phi0_rad doppler_freq_hz time_seconds : ℝ) : ℝ :=
  phi0_rad + 2.0 * M_PI_RAD * doppler_freq_hz * time_seconds

/-! ## Angle estimation -/

/-- The argument `(λ * Δφ) / (2.0 * M_PI_RAD * d)` computed by
`angle_from_phase_difference` (its local `arg`). -/
noncomputable def phase_difference_arg (phase_difference_rad wavelength_ft
    element_spacing_ft : ℝ) : ℝ :=
  (wavelength_ft * phase_difference_rad) / (2.0 * M_PI_RAD * element_spacing_ft)

/-- The function `angle_from_phase_difference`:
`std::asin(std::clamp(arg, -1.0, 1.0))`. -/
noncomputable def angle_from_phase_difference (phase_difference_rad wavelength_ft
    element_spacing_ft : ℝ) : Option ℝ :=
  let arg : ℝ := phase_difference_arg phase_difference_rad wavelength_ft element_spacing_ft
  let clamped : ℝ := clamp arg (-1.0) 1.0
  asin clamped

/-- The function `angle_resolution_limit`: `λ / (N * d)`. -/
noncomputable def angle_resolution_limit (wavelength_ft : ℝ) (num_elements : ℤ)
    (element_spacing_ft : ℝ) : ℝ :=
  wavelength_ft / ((num_elements : ℝ) * element_spacing_ft)

/-! ## Auxiliary facts about the library functions -/

theorem asin_of_mem {x : ℝ} (h₁ : -1 ≤ x) (h₂ : x ≤ 1) : asin x = some (Real.arcsin x) := by
  unfold asin
  rw [if_neg]
  rintro (h | h) <;> linarith

theorem asin_eq_none_iff (x : ℝ) : asin x = none ↔ (x < -1 ∨ 1 < x) := by
  unfold asin
  split_ifs with h <;> simp [h]

theorem clamp_mem (v : ℝ) : -1 ≤ clamp v (-1) 1 ∧ clamp v (-1) 1 ≤ 1 := by
  unfold clamp
  split_ifs with h₁ h₂
  · norm_num
  · norm_num
  · exact ⟨not_lt.mp h₁, not_lt.mp h₂⟩

theorem grating_lobe_angle_rad_of_mem (psi : ℝ) (m : ℤ) (lambda d : ℝ)
    (h₁ : -1 ≤ grating_lobe_rhs psi m lambda d) (h₂ : grating_lobe_rhs psi m lambda d ≤ 1) :
    grating_lobe_angle_rad psi m lambda d
      = some (Real.arcsin (grating_lobe_rhs psi m lambda d)) := by
  unfold grating_lobe_angle_rad
  simp only []
  rw [if_neg, asin_of_mem h₁ h₂]
  rintro (h | h) <;> norm_num at h <;> linarith

theorem grating_lobe_angle_rad_of_not_mem (psi : ℝ) (m : ℤ) (lambda d : ℝ)
    (h : grating_lobe_rhs psi m lambda d < -1 ∨ 1 < grating_lobe_rhs psi m lambda d) :
    grating_lobe_angle_rad psi m lambda d = none := by
  unfold grating_lobe_angle_rad
  simp only []
  rw [if_pos]
  rcases h with h | h
  · left; norm_num; exact h
  · right; norm_num; exact h

theorem spacing_is_safe_le {d lambda : ℝ}
    (h : spacing_is_safe_no_grating_lobes d lambda = true) : d ≤ lambda / 2 := by
  unfold spacing_is_safe_no_grating_lobes at h
  rw [decide_eq_true_iff] at h
  linarith

/-- With `s ≥ -1`, `M ≥ 1` and `q ≥ 2` the sum `s + M * q` is at least `1`, and
it is `1` only for `M = 1`, `q = 2`, `s = -1`. -/
theorem one_le_add_mul {s M q : ℝ} (hs : -1 ≤ s) (hM : 1 ≤ M) (hq : 2 ≤ q) :
    1 ≤ s + M * q ∧ (s + M * q ≤ 1 → M = 1 ∧ q = 2 ∧ s = -1) := by
  have hprod : 0 ≤ (M - 1) * (q - 2) := mul_nonneg (by linarith) (by linarith)
  have hMq : 2 * M + q - 2 ≤ M * q := by nlinarith
  refine ⟨by linarith, fun h => ?_⟩
  have hM1 : M = 1 := by linarith
  subst hM1
  refine ⟨rfl, by linarith, by linarith⟩

theorem M_PI_RAD_pos : 0 < M_PI_RAD := by
  unfold M_PI_RAD
  norm_num

theorem angle_from_phase_difference_eq (dphi lambda d : ℝ) :
    angle_from_phase_difference dphi lambda d
      = asin (clamp (lambda * dphi / (2 * M_PI_RAD * d)) (-1) 1) := by
  unfold angle_from_phase_difference phase_difference_arg
  norm_num

theorem angle_from_phase_difference_of_gt {dphi lambda d : ℝ}
    (h : 1 < lambda * dphi / (2 * M_PI_RAD * d)) :
    angle_from_phase_difference dphi lambda d = some (Real.pi / 2) := by
  have hc : clamp (lambda * dphi / (2 * M_PI_RAD * d)) (-1) 1 = 1 := by
    unfold clamp
    rw [if_neg (by linarith), if_pos h]
  rw [angle_from_phase_difference_eq, hc, asin_of_mem (by norm_num) le_rfl, Real.arcsin_one]

theorem angle_from_phase_difference_of_lt {dphi lambda d : ℝ}
    (h : lambda * dphi / (2 * M_PI_RAD * d) < -1) :
    angle_from_phase_difference dphi lambda d = some (-(Real.pi / 2)) := by
  have hc : clamp (lambda * dphi / (2 * M_PI_RAD * d)) (-1) 1 = -1 := by
    unfold clamp
    rw [if_pos h]
  rw [angle_from_phase_difference_eq, hc, asin_of_mem le_rfl (by norm_num),
    Real.arcsin_neg_one]

theorem angle_from_phase_difference_of_mem {dphi lambda d : ℝ}
    (h₁ : -1 ≤ lambda * dphi / (2 * M_PI_RAD * d))
    (h₂ : lambda * dphi / (2 * M_PI_RAD * d) ≤ 1) :
    angle_from_phase_difference dphi lambda d
      = some (Real.arcsin (lambda * dphi / (2 * M_PI_RAD * d))) := by
  have hc : clamp (lambda * dphi / (2 * M_PI_RAD * d)) (-1) 1
      = lambda * dphi / (2 * M_PI_RAD * d) := by
    unfold clamp
    rw [if_neg (by linarith), if_neg (by linarith)]
  rw [angle_from_phase_difference_eq, hc, asin_of_mem h₁ h₂]

theorem array_factor_from_u_eq (u : ℝ) (N : ℤ) :
    array_factor_from_u u N = |Real.sin (u / 2) * Real.sin ((N : ℝ) * u / 2)| := by
  unfold array_factor_from_u
  simp only []
  have h₁ : (0.5 : ℝ) * u = u / 2 := by ring
  have h₂ : (N : ℝ) * (u / 2) = (N : ℝ) * u / 2 := by ring
  rw [h₁, h₂]

theorem is_null_direction_iff (u : ℝ) (N : ℤ) :
    is_null_direction u N = true ↔ |Real.sin ((N : ℝ) * u / 2)| < 1e-12 := by
  unfold is_null_direction
  simp only []
  have h : (0.5 : ℝ) * (N : ℝ) * u = (N : ℝ) * u / 2 := by ring
  rw [decide_eq_true_iff, h]

/-! ## Grating-lobe sentinel -/

/-- C1. With `d > 0`, `grating_lobe_angle_rad` returns the undefined-angle
sentinel exactly when `rhs = sin ψ + m·(λ/d)` lies outside `[-1, 1]`.  The
boundary is not a sentinel: `ψ = 0, m = 1, λ = 1, d = 1` gives `asin 1 = π/2`,
and `ψ = 0, m = 2, λ = 1, d = 1` gives the sentinel. -/
theorem grating_lobe_sentinel_iff (psi : ℝ) (m : ℤ) (lambda d : ℝ) (_hd : 0 < d) :
    (grating_lobe_angle_rad psi m lambda d = none ↔
        ¬ (-1 ≤ Real.sin psi + (m : ℝ) * (lambda / d) ∧
            Real.sin psi + (m : ℝ) * (lambda / d) ≤ 1)) ∧
      grating_lobe_angle_rad 0 1 1 1 = some (Real.pi / 2) ∧
      grating_lobe_angle_rad 0 2 1 1 = none := by
  refine ⟨?_, ?_, ?_⟩
  · by_cases h : -1 ≤ grating_lobe_rhs psi m lambda d ∧ grating_lobe_rhs psi m lambda d ≤ 1
    · rw [grating_lobe_angle_rad_of_mem psi m lambda d h.1 h.2]
      simpa [grating_lobe_rhs] using h
    · have h' : grating_lobe_rhs psi m lambda d < -1 ∨ 1 < grating_lobe_rhs psi m lambda d := by
        by_contra hc
        push_neg at hc
        exact h ⟨hc.1, hc.2⟩
      rw [grating_lobe_angle_rad_of_not_mem psi m lambda d h']
      simpa [grating_lobe_rhs] using h
  · have e : grating_lobe_rhs 0 1 1 1 = 1 := by simp [grating_lobe_rhs]
    rw [grating_lobe_angle_rad_of_mem 0 1 1 1 (by rw [e]; norm_num) (by rw [e]), e,
      Real.arcsin_one]
  · have e : grating_lobe_rhs 0 2 1 1 = 2 := by simp [grating_lobe_rhs]
    exact grating_lobe_angle_rad_of_not_mem 0 2 1 1 (Or.inr (by rw [e]; norm_num))

/-- C1, evaluated at `ψ = 0, m = 1, λ = 1, d = 1`. -/
theorem grating_lobe_sentinel_iff_witness :
    (0 : ℝ) < 1 ∧
      ((grating_lobe_angle_rad 0 1 1 1 = none ↔
          ¬ (-1 ≤ Real.sin 0 + ((1 : ℤ) : ℝ) * ((1 : ℝ) / 1) ∧
              Real.sin 0 + ((1 : ℤ) : ℝ) * ((1 : ℝ) / 1) ≤ 1)) ∧
        grating_lobe_angle_rad 0 1 1 1 = some (Real.pi / 2) ∧
        grating_lobe_angle_rad 0 2 1 1 = none) :=
  ⟨by norm_num, grating_lobe_sentinel_iff 0 1 1 1 (by norm_num)⟩

/-! ## Order-zero grating lobe -/

/-- C2, as stated, fails off the principal range: for `ψ = 3, λ = 1, d = 1`
the order-0 result is `asin (sin 3) = π - 3`, not `3`. -/
theorem grating_lobe_order_zero_counterexample :
    (0 : ℝ) < 1 ∧ grating_lobe_angle_rad 3 0 1 1 = some (Real.pi - 3) ∧
      grating_lobe_angle_rad 3 0 1 1 ≠ some 3 := by
  have hpi3 : (3 : ℝ) < Real.pi := Real.pi_gt_three
  have hpi4 : Real.pi ≤ 4 := Real.pi_le_four
  have e : grating_lobe_rhs 3 0 1 1 = Real.sin 3 := by simp [grating_lobe_rhs]
  have hval : grating_lobe_angle_rad 3 0 1 1 = some (Real.pi - 3) := by
    rw [grating_lobe_angle_rad_of_mem 3 0 1 1 (by rw [e]; exact Real.neg_one_le_sin 3)
      (by rw [e]; exact Real.sin_le_one 3), e, ← Real.sin_pi_sub 3,
      Real.arcsin_sin (by linarith) (by linarith)]
  refine ⟨by norm_num, hval, ?_⟩
  rw [hval]
  intro h
  have h3 : Real.pi - 3 = 3 := Option.some.inj h
  linarith

/-- C2, amended. For every real `ψ` and `λ > 0`, `d > 0` the order-0 result is
defined and is `asin (sin ψ)`, the angle of `[-π/2, π/2]` with the sine of `ψ`;
it is `ψ` itself exactly when `-π/2 ≤ ψ ≤ π/2`. -/
theorem grating_lobe_order_zero (psi lambda d : ℝ) (_hl : 0 < lambda) (_hd : 0 < d) :
    grating_lobe_angle_rad psi 0 lambda d = some (Real.arcsin (Real.sin psi)) ∧
      (grating_lobe_angle_rad psi 0 lambda d = some psi ↔
        (-(Real.pi / 2) ≤ psi ∧ psi ≤ Real.pi / 2)) := by
  have e : grating_lobe_rhs psi 0 lambda d = Real.sin psi := by simp [grating_lobe_rhs]
  have hval : grating_lobe_angle_rad psi 0 lambda d = some (Real.arcsin (Real.sin psi)) := by
    rw [grating_lobe_angle_rad_of_mem psi 0 lambda d (by rw [e]; exact Real.neg_one_le_sin psi)
      (by rw [e]; exact Real.sin_le_one psi), e]
  refine ⟨hval, ?_⟩
  rw [hval]
  constructor
  · intro h
    have h' : Real.arcsin (Real.sin psi) = psi := Option.some.inj h
    rw [← h']
    exact ⟨Real.neg_pi_div_two_le_arcsin _, Real.arcsin_le_pi_div_two _⟩
  · rintro ⟨h₁, h₂⟩
    rw [Real.arcsin_sin h₁ h₂]

/-- C2 amended, evaluated at `ψ = 0, λ = 1, d = 1`. -/
theorem grating_lobe_order_zero_witness :
    (0 : ℝ) < 1 ∧ (0 : ℝ) < 1 ∧
      grating_lobe_angle_rad 0 0 1 1 = some (Real.arcsin (Real.sin 0)) ∧
      (grating_lobe_angle_rad 0 0 1 1 = some 0 ↔
        (-(Real.pi / 2) ≤ 0 ∧ (0 : ℝ) ≤ Real.pi / 2)) :=
  ⟨by norm_num, by norm_num, grating_lobe_order_zero 0 1 1 (by norm_num) (by norm_num)⟩

/-! ## Safe spacing against grating lobes -/

/-- C3, as stated, fails at the inclusive boundary: with `d = λ/2`
(`λ = 1, d = 0.5`, classified safe), the beam steered to `ψ = -π/2` and order
`m = 1`, `rhs = -1 + 2 = 1` lies on the edge of `[-1, 1]` and the result is the
angle `π/2`, not the sentinel. -/
theorem safe_spacing_grating_lobe_counterexample :
    (0 : ℝ) < 0.5 ∧ (0 : ℝ) < 1 ∧ spacing_is_safe_no_grating_lobes 0.5 1 = true ∧
      (1 : ℤ) ≠ 0 ∧
      grating_lobe_angle_rad (-(Real.pi / 2)) 1 1 0.5 = some (Real.pi / 2) ∧
      grating_lobe_angle_rad (-(Real.pi / 2)) 1 1 0.5 ≠ none := by
  have e : grating_lobe_rhs (-(Real.pi / 2)) 1 1 0.5 = 1 := by
    simp only [grating_lobe_rhs, Real.sin_neg, Real.sin_pi_div_two]
    norm_num
  have hval : grating_lobe_angle_rad (-(Real.pi / 2)) 1 1 0.5 = some (Real.pi / 2) := by
    rw [grating_lobe_angle_rad_of_mem _ 1 1 0.5 (by rw [e]; norm_num) (by rw [e]), e,
      Real.arcsin_one]
  refine ⟨by norm_num, by norm_num, ?_, by decide, hval, ?_⟩
  · unfold spacing_is_safe_no_grating_lobes
    rw [decide_eq_true_iff]
    norm_num
  · rw [hval]
    exact Option.some_ne_none _

/-- C3, amended. For `d > 0`, `λ > 0` with safe spacing, every real `ψ` and every
non-zero order `m`, `grating_lobe_angle_rad ψ m λ d` is the sentinel, except at
the inclusive boundary `d = λ/2` with `m = ±1` and `sin ψ = -m` (beam steered to
endfire), where `rhs = m` and the result is the angle `m·π/2`.  In particular
the result is the sentinel whenever `d < λ/2`. -/
theorem safe_spacing_grating_lobe (psi : ℝ) (m : ℤ) (lambda d : ℝ)
    (hd : 0 < d) (_hl : 0 < lambda)
    (hsafe : spacing_is_safe_no_grating_lobes d lambda = true) (hm : m ≠ 0) :
    (¬ (d = lambda / 2 ∧ (m = 1 ∨ m = -1) ∧ Real.sin psi = -(m : ℝ)) →
        grating_lobe_angle_rad psi m lambda d = none) ∧
      ((d = lambda / 2 ∧ (m = 1 ∨ m = -1) ∧ Real.sin psi = -(m : ℝ)) →
        grating_lobe_angle_rad psi m lambda d = some ((m : ℝ) * (Real.pi / 2))) ∧
      (d < lambda / 2 → grating_lobe_angle_rad psi m lambda d = none) := by
  have hle : d ≤ lambda / 2 := spacing_is_safe_le hsafe
  have hq : 2 ≤ lambda / d := by
    rw [le_div_iff₀ hd]
    linarith
  have hqd : lambda / d = 2 → d = lambda / 2 := by
    intro h
    rw [div_eq_iff hd.ne'] at h
    linarith
  have hs₁ : -1 ≤ Real.sin psi := Real.neg_one_le_sin psi
  have hs₂ : Real.sin psi ≤ 1 := Real.sin_le_one psi
  have hnone : ¬ (d = lambda / 2 ∧ (m = 1 ∨ m = -1) ∧ Real.sin psi = -(m : ℝ)) →
      grating_lobe_angle_rad psi m lambda d = none := by
    intro hne
    apply grating_lobe_angle_rad_of_not_mem
    unfold grating_lobe_rhs
    rcases lt_or_gt_of_ne hm with hneg | hpos
    · left
      have hM : (1 : ℝ) ≤ -(m : ℝ) := by
        have : m ≤ -1 := by omega
        have : (m : ℝ) ≤ -1 := by exact_mod_cast this
        linarith
      have key := one_le_add_mul (s := -Real.sin psi) (by linarith) hM hq
      by_contra hc
      push_neg at hc
      obtain ⟨hM1, hq2, hs⟩ := key.2 (by linarith)
      apply hne
      refine ⟨hqd hq2, Or.inr ?_, by linarith⟩
      have : (m : ℝ) = -1 := by linarith
      exact_mod_cast this
    · right
      have hM : (1 : ℝ) ≤ (m : ℝ) := by
        have : 1 ≤ m := by omega
        exact_mod_cast this
      have key := one_le_add_mul hs₁ hM hq
      by_contra hc
      push_neg at hc
      obtain ⟨hM1, hq2, hs⟩ := key.2 hc
      apply hne
      refine ⟨hqd hq2, Or.inl ?_, by linarith⟩
      exact_mod_cast hM1
  refine ⟨hnone, ?_, fun hlt => hnone (fun h => by linarith [h.1])⟩
  rintro ⟨hdl, hm1 | hm1, hsin⟩
  · subst hm1
    have e : grating_lobe_rhs psi 1 lambda d = 1 := by
      unfold grating_lobe_rhs
      have : lambda / d = 2 := by rw [div_eq_iff hd.ne']; linarith
      rw [this, hsin]
      norm_num
    rw [grating_lobe_angle_rad_of_mem psi 1 lambda d (by rw [e]; norm_num) (by rw [e]), e,
      Real.arcsin_one]
    norm_num
  · subst hm1
    have e : grating_lobe_rhs psi (-1) lambda d = -1 := by
      unfold grating_lobe_rhs
      have : lambda / d = 2 := by rw [div_eq_iff hd.ne']; linarith
      rw [this, hsin]
      norm_num
    rw [grating_lobe_angle_rad_of_mem psi (-1) lambda d (by rw [e]) (by rw [e]; norm_num), e,
      Real.arcsin_neg_one]
    norm_num

/-- C3 amended, evaluated at `ψ = 0, m = 1, λ = 1, d = 0.5`. -/
theorem safe_spacing_grating_lobe_witness :
    (0 : ℝ) < 0.5 ∧ (0 : ℝ) < 1 ∧ spacing_is_safe_no_grating_lobes 0.5 1 = true ∧
      (1 : ℤ) ≠ 0 ∧
      ((¬ ((0.5 : ℝ) = 1 / 2 ∧ ((1 : ℤ) = 1 ∨ (1 : ℤ) = -1) ∧ Real.sin 0 = -((1 : ℤ) : ℝ)) →
          grating_lobe_angle_rad 0 1 1 0.5 = none) ∧
        (((0.5 : ℝ) = 1 / 2 ∧ ((1 : ℤ) = 1 ∨ (1 : ℤ) = -1) ∧ Real.sin 0 = -((1 : ℤ) : ℝ)) →
          grating_lobe_angle_rad 0 1 1 0.5 = some (((1 : ℤ) : ℝ) * (Real.pi / 2))) ∧
        ((0.5 : ℝ) < 1 / 2 → grating_lobe_angle_rad 0 1 1 0.5 = none)) :=
  have hsafe : spacing_is_safe_no_grating_lobes 0.5 1 = true := by
    unfold spacing_is_safe_no_grating_lobes
    rw [decide_eq_true_iff]
    norm_num
  ⟨by norm_num, by norm_num, hsafe, by decide,
    safe_spacing_grating_lobe 0 1 1 0.5 (by norm_num) (by norm_num) hsafe (by decide)⟩

/-! ## Spacing rule -/

/-- C4. For all real `d` and `λ`, `spacing_is_safe_no_grating_lobes d λ` is
true exactly when `d ≤ λ/2`; in particular it is true at `d = λ/2`. -/
theorem spacing_is_safe_iff (d lambda : ℝ) :
    (spacing_is_safe_no_grating_lobes d lambda = true ↔ d ≤ lambda / 2) ∧
      spacing_is_safe_no_grating_lobes (lambda / 2) lambda = true := by
  have h : (0.5 : ℝ) * lambda = lambda / 2 := by ring
  constructor
  · unfold spacing_is_safe_no_grating_lobes
    rw [decide_eq_true_iff, h]
  · unfold spacing_is_safe_no_grating_lobes
    rw [decide_eq_true_iff, h]

/-! ## Phase-to-angle inversion -/

/-- C5. `angle_from_phase_difference` saturates: for `λ > 0`, `d > 0` and every
`Δφ`, with `arg = λ·Δφ / (2·M_PI_RAD·d)` and `M_PI_RAD = 3.1415927`, the result
is `π/2` when `arg > 1`, `-π/2` when `arg < -1` and `asin arg` otherwise; it is
always a defined real of `[-π/2, π/2]`, never the sentinel.  At
`λ = 1, d = 0.1, Δφ = 1`, `arg > 1` and the result is `π/2`. -/
theorem angle_from_phase_difference_saturates (dphi lambda d : ℝ)
    (_hl : 0 < lambda) (_hd : 0 < d) :
    M_PI_RAD = 3.1415927 ∧
      (1 < lambda * dphi / (2 * M_PI_RAD * d) →
        angle_from_phase_difference dphi lambda d = some (Real.pi / 2)) ∧
      (lambda * dphi / (2 * M_PI_RAD * d) < -1 →
        angle_from_phase_difference dphi lambda d = some (-(Real.pi / 2))) ∧
      (-1 ≤ lambda * dphi / (2 * M_PI_RAD * d) → lambda * dphi / (2 * M_PI_RAD * d) ≤ 1 →
        angle_from_phase_difference dphi lambda d
          = some (Real.arcsin (lambda * dphi / (2 * M_PI_RAD * d)))) ∧
      (∃ r : ℝ, angle_from_phase_difference dphi lambda d = some r ∧
        -(Real.pi / 2) ≤ r ∧ r ≤ Real.pi / 2) ∧
      angle_from_phase_difference dphi lambda d ≠ none ∧
      (1 < (1 : ℝ) * 1 / (2 * M_PI_RAD * 0.1) ∧
        angle_from_phase_difference 1 1 0.1 = some (Real.pi / 2)) := by
  have hpi : 0 < Real.pi := Real.pi_pos
  have hdef : ∃ r : ℝ, angle_from_phase_difference dphi lambda d = some r ∧
      -(Real.pi / 2) ≤ r ∧ r ≤ Real.pi / 2 := by
    rcases lt_or_le 1 (lambda * dphi / (2 * M_PI_RAD * d)) with h | h
    · exact ⟨_, angle_from_phase_difference_of_gt h, by linarith, le_rfl⟩
    · rcases lt_or_le (lambda * dphi / (2 * M_PI_RAD * d)) (-1) with h' | h'
      · exact ⟨_, angle_from_phase_difference_of_lt h', le_rfl, by linarith⟩
      · exact ⟨_, angle_from_phase_difference_of_mem h' h,
          Real.neg_pi_div_two_le_arcsin _, Real.arcsin_le_pi_div_two _⟩
  have hex : 1 < (1 : ℝ) * 1 / (2 * M_PI_RAD * 0.1) := by
    unfold M_PI_RAD
    norm_num
  refine ⟨rfl, angle_from_phase_difference_of_gt, angle_from_phase_difference_of_lt,
    angle_from_phase_difference_of_mem, hdef, ?_, hex, angle_from_phase_difference_of_gt hex⟩
  obtain ⟨r, hr, -⟩ := hdef
  rw [hr]
  exact Option.some_ne_none r

/-- C5, evaluated at `Δφ = 1, λ = 1, d = 0.1`. -/
theorem angle_from_phase_difference_saturates_witness :
    (0 : ℝ) < 1 ∧ (0 : ℝ) < 0.1 ∧ angle_from_phase_difference 1 1 0.1 = some (Real.pi / 2) ∧
      angle_from_phase_difference 1 1 0.1 ≠ none :=
  have h := angle_from_phase_difference_saturates 1 1 0.1 (by norm_num) (by norm_num)
  ⟨by norm_num, by norm_num, h.2.2.2.2.2.2.2, h.2.2.2.2.2.1⟩

/-! ## Array factor and null test -/

/-- C6. For every `N ≥ 1` and real `u` such that `N·u/2` is an integer multiple
`k·π` of mathematical `π`, `is_null_direction u N` is true, where
`is_null_direction u N` is the test `|sin(N·u/2)| < 1e-12`. -/
theorem is_null_direction_of_multiple_of_pi (u : ℝ) (N : ℤ) (k : ℤ) (_hN : 1 ≤ N)
    (h : (N : ℝ) * u / 2 = (k : ℝ) * Real.pi) :
    is_null_direction u N = true ∧
      (is_null_direction u N = true ↔ |Real.sin ((N : ℝ) * u / 2)| < 1e-12) := by
  refine ⟨?_, is_null_direction_iff u N⟩
  rw [is_null_direction_iff, h, Real.sin_int_mul_pi]
  norm_num

/-- C6, evaluated at `N = 2`, `u = π` (so `N·u/2 = 1·π`). -/
theorem is_null_direction_of_multiple_of_pi_witness :
    (1 : ℤ) ≤ 2 ∧ ((2 : ℤ) : ℝ) * Real.pi / 2 = ((1 : ℤ) : ℝ) * Real.pi ∧
      is_null_direction Real.pi 2 = true :=
  have h : ((2 : ℤ) : ℝ) * Real.pi / 2 = ((1 : ℤ) : ℝ) * Real.pi := by
    push_cast
    ring
  ⟨by decide, h, (is_null_direction_of_multiple_of_pi Real.pi 2 1 (by decide) h).1⟩

/-- C7. For every real `u` and every integer `N` (zero and negative included),
`array_factor_from_u u N` is `|sin(u/2) · sin(N·u/2)|`, the product form, and
is therefore non-negative. -/
theorem array_factor_from_u_product_form (u : ℝ) (N : ℤ) :
    array_factor_from_u u N = |Real.sin (u / 2) * Real.sin ((N : ℝ) * u / 2)| ∧
      0 ≤ array_factor_from_u u N := by
  refine ⟨array_factor_from_u_eq u N, ?_⟩
  rw [array_factor_from_u_eq]
  exact abs_nonneg _

/-- C8. At the steered direction: for `λ > 0`, every `d`, `ψ` and `N`, with
`k = wavenumber_from_wavelength λ`, `calculate_u ψ ψ k d = 0` and
`array_factor_from_u 0 N = 0`, so the array factor in the main-lobe direction
is `0`. -/
theorem array_factor_at_steered_direction (lambda d psi : ℝ) (N : ℤ) (_hl : 0 < lambda) :
    calculate_u psi psi (wavenumber_from_wavelength lambda) d = 0 ∧
      array_factor_from_u 0 N = 0 ∧
      array_factor_from_u (calculate_u psi psi (wavenumber_from_wavelength lambda) d) N
        = 0 := by
  have hu : calculate_u psi psi (wavenumber_from_wavelength lambda) d = 0 := by
    unfold calculate_u
    rw [sub_self, mul_zero]
  have h0 : array_factor_from_u 0 N = 0 := by
    rw [array_factor_from_u_eq]
    simp
  exact ⟨hu, h0, by rw [hu, h0]⟩

/-- C8, evaluated at `λ = 1, N = 8, d = 0.5, ψ = θ = 0`. -/
theorem array_factor_at_steered_direction_witness :
    (0 : ℝ) < 1 ∧ calculate_u 0 0 (wavenumber_from_wavelength 1) 0.5 = 0 ∧
      array_factor_from_u 0 8 = 0 ∧
      array_factor_from_u (calculate_u 0 0 (wavenumber_from_wavelength 1) 0.5) 8 = 0 :=
  ⟨by norm_num, array_factor_at_steered_direction 1 0.5 0 8 (by norm_num)⟩

/-! ## Radar range equation -/

/-- C9. `radar_received_power` scales as `R⁻⁴`: for positive `Pt`, `G`, `λ`,
`σ` and `R`, doubling the range divides the received power by `16`. -/
theorem radar_received_power_double_range (Pt G lambda sigma R : ℝ)
    (hPt : 0 < Pt) (hG : 0 < G) (hl : 0 < lambda) (hs : 0 < sigma) (hR : 0 < R) :
    radar_received_power Pt G lambda sigma (2 * R)
      = radar_received_power Pt G lambda sigma R / 16 := by
  have hpi : M_PI_RAD ≠ 0 := M_PI_RAD_pos.ne'
  have hR0 : R ≠ 0 := hR.ne'
  unfold radar_received_power
  simp only []
  field_simp
  ring

/-- C9, evaluated at `Pt = G = λ = σ = R = 1`. -/
theorem radar_received_power_double_range_witness :
    (0 : ℝ) < 1 ∧
      radar_received_power 1 1 1 1 (2 * 1) = radar_received_power 1 1 1 1 1 / 16 :=
  ⟨by norm_num,
    radar_received_power_double_range 1 1 1 1 1 (by norm_num) (by norm_num) (by norm_num)
      (by norm_num) (by norm_num)⟩

/-! ## Doppler -/

/-- C10. `doppler_frequency` is odd in the radial velocity: for every real `v`
and every wavelength `λ`, `doppler_frequency (-v) λ = -doppler_frequency v λ`,
where `doppler_frequency v λ = 2·v/λ`. -/
theorem doppler_frequency_odd (v lambda : ℝ) :
    doppler_frequency (-v) lambda = -doppler_frequency v lambda ∧
      doppler_frequency v lambda = 2 * v / lambda := by
  unfold doppler_frequency
  constructor
  · rw [mul_neg, neg_div]
  · norm_num

/-! ## Beamwidths at broadside -/

/-- C11. For every `λ`, `N` and `d`, `HPBW_broadside_rad λ N d` and
`FNBW_rad λ N d` are both `2·λ/(N·d)`, and both equal `HPBW_rad λ N d 0`, the
general half-power beamwidth at observation angle `θ = 0`. -/
theorem beamwidths_coincide_at_broadside (lambda : ℝ) (N : ℤ) (d : ℝ) :
    HPBW_broadside_rad lambda N d = FNBW_rad lambda N d ∧
      FNBW_rad lambda N d = 2 * lambda / ((N : ℝ) * d) ∧
      HPBW_rad lambda N d 0 = HPBW_broadside_rad lambda N d ∧
      HPBW_rad lambda N d 0 = FNBW_rad lambda N d := by
  have h₁ : HPBW_broadside_rad lambda N d = FNBW_rad lambda N d := rfl
  have h₂ : FNBW_rad lambda N d = 2 * lambda / ((N : ℝ) * d) := by
    unfold FNBW_rad
    norm_num
  have h₃ : HPBW_rad lambda N d 0 = HPBW_broadside_rad lambda N d := by
    unfold HPBW_rad HPBW_broadside_rad
    rw [Real.cos_zero, mul_one]
  exact ⟨h₁, h₂, h₃, h₃.trans h₁⟩

/-! ## Array gain -/

/-- C12. For every `N ≥ 1`, `array_gain_dB N` is `10·log10 N`, which is
`10·log10 (array_gain_linear N)` with `array_gain_linear N = N ≥ 1`; hence it is
non-negative, and `array_gain_dB 10 = 10`. -/
theorem array_gain_dB_eq (N : ℤ) (hN : 1 ≤ N) :
    array_gain_dB N = some (10 * Real.logb 10 (N : ℝ)) ∧
      array_gain_dB N = some (10 * Real.logb 10 (array_gain_linear N)) ∧
      array_gain_linear N = (N : ℝ) ∧ 1 ≤ array_gain_linear N ∧
      (∃ g : ℝ, array_gain_dB N = some g ∧ 0 ≤ g) ∧
      array_gain_dB 10 = some 10 := by
  have hN1 : (1 : ℝ) ≤ (N : ℝ) := by exact_mod_cast hN
  have hval : array_gain_dB N = some (10 * Real.logb 10 (N : ℝ)) := by
    unfold array_gain_dB log10
    rw [if_neg (by linarith)]
    norm_num
  have hnn : 0 ≤ 10 * Real.logb 10 (N : ℝ) :=
    mul_nonneg (by norm_num) (Real.logb_nonneg (by norm_num) hN1)
  have h10 : array_gain_dB 10 = some 10 := by
    unfold array_gain_dB log10
    have hl : Real.logb 10 (10 : ℝ) = 1 := Real.logb_self_eq_one (by norm_num)
    norm_num [hl]
  exact ⟨hval, hval, rfl, hN1, ⟨_, hval, hnn⟩, h10⟩

/-- C12, evaluated at `N = 10`. -/
theorem array_gain_dB_eq_witness :
    (1 : ℤ) ≤ 10 ∧ array_gain_dB 10 = some (10 * Real.logb 10 ((10 : ℤ) : ℝ)) ∧
      array_gain_dB 10 = some 10 :=
  have h := array_gain_dB_eq 10 (by decide)
  ⟨by decide, h.1, h.2.2.2.2.2⟩

/-! ## Doppler phase -/

/-- C13. The Doppler phase is unwrapped and the two phase operations agree:
`doppler_phase_instant φ0 fd t = φ0 + doppler_phase_delta fd t` with
`doppler_phase_delta fd t = 2·M_PI_RAD·fd·t`, `M_PI_RAD = 3.1415927`, and no
reduction modulo `2π`: the delta is linear in `t` and `doppler_phase_delta 1 2`
exceeds `2π`. -/
theorem doppler_phase_unwrapped (phi0 fd t a : ℝ) :
    doppler_phase_instant phi0 fd t = phi0 + doppler_phase_delta fd t ∧
      doppler_phase_delta fd t = 2 * M_PI_RAD * fd * t ∧
      M_PI_RAD = 3.1415927 ∧
      doppler_phase_delta fd (a * t) = a * doppler_phase_delta fd t ∧
      2 * Real.pi < doppler_phase_delta 1 2 := by
  have hd : ∀ f s : ℝ, doppler_phase_delta f s = 2 * M_PI_RAD * f * s := by
    intro f s
    unfold doppler_phase_delta
    norm_num
  refine ⟨?_, hd fd t, rfl, ?_, ?_⟩
  · unfold doppler_phase_instant
    rw [hd]
    norm_num
  · rw [hd, hd]
    ring
  · rw [hd]
    have hpi : Real.pi ≤ 4 := Real.pi_le_four
    unfold M_PI_RAD
    norm_num
    linarith

/-! ## The rounded constant -/

/-- The constant `M_PI_RAD` exceeds `π` by more than `4.6e-8`. -/
theorem M_PI_RAD_sub_pi_lower : 4.6e-8 < M_PI_RAD - Real.pi := by
  have h := Real.pi_lt_d20
  unfold M_PI_RAD
  norm_num at h ⊢
  linarith

/-- The constant `M_PI_RAD` exceeds `π` by less than `4.7e-8`. -/
theorem M_PI_RAD_sub_pi_upper : M_PI_RAD - Real.pi < 4.7e-8 := by
  have h := Real.pi_gt_d20
  unfold M_PI_RAD
  norm_num at h ⊢
  linarith

theorem wavenumber_from_wavelength_eq (lambda : ℝ) :
    wavenumber_from_wavelength lambda = 2 * M_PI_RAD / lambda := by
  unfold wavenumber_from_wavelength
  norm_num

/-- The sine of the constant: `sin M_PI_RAD = -sin (M_PI_RAD - π)`, of
magnitude at least `2e-8`. -/
theorem abs_sin_M_PI_RAD_lower : 2e-8 ≤ |Real.sin M_PI_RAD| := by
  have h₁ := M_PI_RAD_sub_pi_lower
  have h₂ := M_PI_RAD_sub_pi_upper
  have hpi3 : (3 : ℝ) < Real.pi := Real.pi_gt_three
  have hpi4 : Real.pi ≤ 4 := Real.pi_le_four
  have he : Real.sin M_PI_RAD = -Real.sin (M_PI_RAD - Real.pi) := by
    rw [Real.sin_sub_pi, neg_neg]
  have h0 : 0 ≤ M_PI_RAD - Real.pi := by
    norm_num at h₁
    linarith
  have hle : M_PI_RAD - Real.pi ≤ Real.pi / 2 := by
    norm_num at h₂
    linarith
  have hsin := Real.mul_le_sin h0 hle
  have hhalf : (1 / 2 : ℝ) ≤ 2 / Real.pi := by
    rw [le_div_iff₀ Real.pi_pos]
    linarith
  have hmul : 1 / 2 * (M_PI_RAD - Real.pi) ≤ 2 / Real.pi * (M_PI_RAD - Real.pi) :=
    mul_le_mul_of_nonneg_right hhalf h0
  rw [he, abs_neg]
  refine le_trans ?_ (le_abs_self _)
  norm_num at h₁ ⊢
  linarith

/-- C14. `M_PI_RAD = 3.1415927` is `π` rounded to seven decimals, not `π`:
`0 < |M_PI_RAD - π| ≤ 5e-8`; so for every `λ > 0`,
`wavenumber_from_wavelength λ = 2·M_PI_RAD/λ` differs from `2π/λ` and is
positive. -/
theorem M_PI_RAD_rounded (lambda : ℝ) (hl : 0 < lambda) :
    M_PI_RAD = 3.1415927 ∧ 0 < |M_PI_RAD - Real.pi| ∧ |M_PI_RAD - Real.pi| ≤ 5e-8 ∧
      wavenumber_from_wavelength lambda = 2 * M_PI_RAD / lambda ∧
      wavenumber_from_wavelength lambda ≠ 2 * Real.pi / lambda ∧
      0 < wavenumber_from_wavelength lambda := by
  have h₁ := M_PI_RAD_sub_pi_lower
  have h₂ := M_PI_RAD_sub_pi_upper
  have hpos : 0 < M_PI_RAD - Real.pi := by
    norm_num at h₁
    linarith
  refine ⟨rfl, ?_, ?_, wavenumber_from_wavelength_eq lambda, ?_, ?_⟩
  · rw [abs_of_pos hpos]
    exact hpos
  · rw [abs_of_pos hpos]
    norm_num at h₂ ⊢
    linarith
  · rw [wavenumber_from_wavelength_eq]
    intro h
    rw [div_left_inj' hl.ne'] at h
    linarith
  · rw [wavenumber_from_wavelength_eq]
    exact div_pos (mul_pos (by norm_num) M_PI_RAD_pos) hl

/-- C14, evaluated at `λ = 1`. -/
theorem M_PI_RAD_rounded_witness :
    (0 : ℝ) < 1 ∧ wavenumber_from_wavelength 1 ≠ 2 * Real.pi / 1 ∧
      0 < wavenumber_from_wavelength 1 :=
  have h := M_PI_RAD_rounded 1 (by norm_num)
  ⟨by norm_num, h.2.2.2.2.1, h.2.2.2.2.2⟩

/-! ## Grating-lobe condition -/

/-- C15. Whenever `grating_lobe_angle_rad ψ m λ d` (with `d > 0`) is an angle
`θ_g` and not the sentinel, `θ_g` satisfies the grating-lobe condition
`sin θ_g = sin ψ + m·(λ/d)` and lies in `[-π/2, π/2]`. -/
theorem grating_lobe_condition (psi : ℝ) (m : ℤ) (lambda d theta_g : ℝ) (_hd : 0 < d)
    (h : grating_lobe_angle_rad psi m lambda d = some theta_g) :
    Real.sin theta_g = Real.sin psi + (m : ℝ) * (lambda / d) ∧
      -(Real.pi / 2) ≤ theta_g ∧ theta_g ≤ Real.pi / 2 := by
  by_cases hm : -1 ≤ grating_lobe_rhs psi m lambda d ∧ grating_lobe_rhs psi m lambda d ≤ 1
  · rw [grating_lobe_angle_rad_of_mem psi m lambda d hm.1 hm.2] at h
    have ht : Real.arcsin (grating_lobe_rhs psi m lambda d) = theta_g := Option.some.inj h
    rw [← ht]
    refine ⟨?_, Real.neg_pi_div_two_le_arcsin _, Real.arcsin_le_pi_div_two _⟩
    rw [Real.sin_arcsin hm.1 hm.2]
    rfl
  · have hout : grating_lobe_rhs psi m lambda d < -1 ∨ 1 < grating_lobe_rhs psi m lambda d := by
      by_contra hc
      push_neg at hc
      exact hm ⟨hc.1, hc.2⟩
    rw [grating_lobe_angle_rad_of_not_mem psi m lambda d hout] at h
    exact absurd h (Option.some_ne_none theta_g).symm

/-- C15, evaluated at `ψ = 0, m = 1, λ = 1, d = 1`, where `θ_g = π/2`. -/
theorem grating_lobe_condition_witness :
    (0 : ℝ) < 1 ∧ grating_lobe_angle_rad 0 1 1 1 = some (Real.pi / 2) ∧
      Real.sin (Real.pi / 2) = Real.sin 0 + ((1 : ℤ) : ℝ) * ((1 : ℝ) / 1) ∧
      -(Real.pi / 2) ≤ Real.pi / 2 ∧ Real.pi / 2 ≤ Real.pi / 2 :=
  have e : grating_lobe_rhs 0 1 1 1 = 1 := by simp [grating_lobe_rhs]
  have hval : grating_lobe_angle_rad 0 1 1 1 = some (Real.pi / 2) := by
    rw [grating_lobe_angle_rad_of_mem 0 1 1 1 (by rw [e]; norm_num) (by rw [e]), e,
      Real.arcsin_one]
  ⟨by norm_num, hval, grating_lobe_condition 0 1 1 1 (Real.pi / 2) (by norm_num) hval⟩

/-! ## Phase model and its inversion -/

/-- With the library's own wavenumber, the argument of the inverse sine is
`sin ψ`: the constant `M_PI_RAD` cancels. -/
theorem phase_arg_of_calculate_u (psi lambda d : ℝ) (hl : 0 < lambda) (hd : 0 < d) :
    lambda * calculate_u psi 0 (wavenumber_from_wavelength lambda) d / (2 * M_PI_RAD * d)
      = Real.sin psi := by
  have hpi : M_PI_RAD ≠ 0 := M_PI_RAD_pos.ne'
  have hl0 : lambda ≠ 0 := hl.ne'
  have hd0 : d ≠ 0 := hd.ne'
  rw [wavenumber_from_wavelength_eq]
  unfold calculate_u
  rw [Real.sin_zero, sub_zero]
  field_simp

/-- C16. Phase-to-angle inversion undoes the phase model through the library's
own wavenumber: for `λ > 0`, `d > 0` and `ψ ∈ [-π/2, π/2]`,
`angle_from_phase_difference (calculate_u ψ 0 (wavenumber_from_wavelength λ) d) λ d`
is `ψ`. -/
theorem angle_from_phase_difference_calculate_u (psi lambda d : ℝ)
    (hl : 0 < lambda) (hd : 0 < d)
    (h₁ : -(Real.pi / 2) ≤ psi) (h₂ : psi ≤ Real.pi / 2) :
    angle_from_phase_difference
        (calculate_u psi 0 (wavenumber_from_wavelength lambda) d) lambda d = some psi := by
  have harg := phase_arg_of_calculate_u psi lambda d hl hd
  rw [angle_from_phase_difference_of_mem (by rw [harg]; exact Real.neg_one_le_sin psi)
    (by rw [harg]; exact Real.sin_le_one psi), harg, Real.arcsin_sin h₁ h₂]

/-- C16, evaluated at `ψ = 0, λ = 1, d = 0.5`. -/
theorem angle_from_phase_difference_calculate_u_witness :
    (0 : ℝ) < 1 ∧ (0 : ℝ) < 0.5 ∧ -(Real.pi / 2) ≤ 0 ∧ (0 : ℝ) ≤ Real.pi / 2 ∧
      angle_from_phase_difference
        (calculate_u 0 0 (wavenumber_from_wavelength 1) 0.5) 1 0.5 = some 0 :=
  have hp : 0 < Real.pi := Real.pi_pos
  have h₁ : -(Real.pi / 2) ≤ 0 := by linarith
  have h₂ : (0 : ℝ) ≤ Real.pi / 2 := by linarith
  ⟨by norm_num, by norm_num, h₁, h₂,
    angle_from_phase_difference_calculate_u 0 1 0.5 (by norm_num) (by norm_num) h₁ h₂⟩

/-! ## Null test at the textbook first null -/

/-- C17. The null test is not met at the textbook first null built with the
library's constant: for `N ≥ 1`, `is_null_direction (2·M_PI_RAD/N) N` is false,
since `N·u/2 = 3.1415927` and `|sin 3.1415927| ≥ 1e-12`; `2·M_PI_RAD/N` is the
value of `calculate_u` with `k = wavenumber_from_wavelength λ` when
`sin ψ - sin θ = λ/(N·d)`. -/
theorem is_null_direction_first_null (N : ℤ) (hN : 1 ≤ N) :
    is_null_direction (2 * M_PI_RAD / (N : ℝ)) N = false ∧
      (N : ℝ) * (2 * M_PI_RAD / (N : ℝ)) / 2 = 3.1415927 ∧
      (1e-12 : ℝ) ≤ |Real.sin 3.1415927| ∧
      (∀ lambda d psi theta : ℝ, 0 < lambda → 0 < d →
        Real.sin psi - Real.sin theta = lambda / ((N : ℝ) * d) →
        calculate_u psi theta (wavenumber_from_wavelength lambda) d
          = 2 * M_PI_RAD / (N : ℝ)) := by
  have hN1 : (1 : ℝ) ≤ (N : ℝ) := by exact_mod_cast hN
  have hN0 : (N : ℝ) ≠ 0 := by linarith
  have harg : (N : ℝ) * (2 * M_PI_RAD / (N : ℝ)) / 2 = M_PI_RAD := by
    field_simp
  have hsin : (2e-8 : ℝ) ≤ |Real.sin M_PI_RAD| := abs_sin_M_PI_RAD_lower
  refine ⟨?_, harg, ?_, ?_⟩
  · rw [← Bool.not_eq_true, is_null_direction_iff, harg]
    intro hlt
    norm_num at hsin hlt
    linarith
  · have h : (1e-12 : ℝ) ≤ |Real.sin M_PI_RAD| := le_trans (by norm_num) hsin
    exact h
  · intro lambda d psi theta hl hd hdiff
    have hl0 : lambda ≠ 0 := hl.ne'
    have hd0 : d ≠ 0 := hd.ne'
    unfold calculate_u
    rw [hdiff, wavenumber_from_wavelength_eq]
    field_simp
    ring

/-- C17, evaluated at `N = 8`. -/
theorem is_null_direction_first_null_witness :
    (1 : ℤ) ≤ 8 ∧ is_null_direction (2 * M_PI_RAD / ((8 : ℤ) : ℝ)) 8 = false :=
  ⟨by decide, (is_null_direction_first_null 8 (by decide)).1⟩

/-! ## Array factor: null directions, bound and symmetry -/

theorem array_factor_from_u_le_abs_sin (u : ℝ) (N : ℤ) :
    array_factor_from_u u N ≤ |Real.sin ((N : ℝ) * u / 2)| := by
  rw [array_factor_from_u_eq, abs_mul]
  have h₁ : |Real.sin (u / 2)| ≤ 1 := Real.abs_sin_le_one _
  have h₂ : 0 ≤ |Real.sin ((N : ℝ) * u / 2)| := abs_nonneg _
  calc |Real.sin (u / 2)| * |Real.sin ((N : ℝ) * u / 2)|
      ≤ 1 * |Real.sin ((N : ℝ) * u / 2)| := mul_le_mul_of_nonneg_right h₁ h₂
    _ = |Real.sin ((N : ℝ) * u / 2)| := one_mul _

/-- C18. A null direction has a negligible array factor: if
`is_null_direction u N` is true then `array_factor_from_u u N < 1e-12`. -/
theorem array_factor_of_null_direction (u : ℝ) (N : ℤ)
    (h : is_null_direction u N = true) : array_factor_from_u u N < 1e-12 := by
  rw [is_null_direction_iff] at h
  exact lt_of_le_of_lt (array_factor_from_u_le_abs_sin u N) h

/-- C18, evaluated at `u = 0, N = 1`. -/
theorem array_factor_of_null_direction_witness :
    is_null_direction 0 1 = true ∧ array_factor_from_u 0 1 < 1e-12 :=
  have h : is_null_direction 0 1 = true := by
    rw [is_null_direction_iff]
    norm_num
  ⟨h, array_factor_of_null_direction 0 1 h⟩

/-- C19. The product-form array factor is bounded by `1` whatever the element
count, so it stays below `N` for `N ≥ 2`, and it is even in `u`. -/
theorem array_factor_from_u_le_one (u : ℝ) (N : ℤ) :
    array_factor_from_u u N ≤ 1 ∧
      (2 ≤ N → array_factor_from_u u N < (N : ℝ)) ∧
      array_factor_from_u (-u) N = array_factor_from_u u N := by
  have hle : array_factor_from_u u N ≤ 1 :=
    le_trans (array_factor_from_u_le_abs_sin u N) (Real.abs_sin_le_one _)
  refine ⟨hle, ?_, ?_⟩
  · intro hN
    have hN2 : (2 : ℝ) ≤ (N : ℝ) := by exact_mod_cast hN
    linarith
  · rw [array_factor_from_u_eq, array_factor_from_u_eq]
    have h₁ : -u / 2 = -(u / 2) := by ring
    have h₂ : (N : ℝ) * -u / 2 = -((N : ℝ) * u / 2) := by ring
    rw [h₁, h₂, Real.sin_neg, Real.sin_neg, neg_mul_neg]

/-- C19, evaluated at `u = 1, N = 8`. -/
theorem array_factor_from_u_le_one_witness :
    (2 : ℤ) ≤ 8 ∧ array_factor_from_u 1 8 ≤ 1 ∧ array_factor_from_u 1 8 < ((8 : ℤ) : ℝ) ∧
      array_factor_from_u (-1) 8 = array_factor_from_u 1 8 :=
  have h := array_factor_from_u_le_one 1 8
  ⟨by decide, h.1, h.2.1 (by decide), h.2.2⟩

/-! ## Beamwidth off broadside -/

/-- C20. The beam never narrows off broadside: for `λ > 0`, `d > 0`, `N ≥ 1` and
`|θ| < π/2`, `HPBW_rad λ N d θ ≥ HPBW_broadside_rad λ N d`, which is
`2 · angle_resolution_limit λ N d` and positive. -/
theorem HPBW_rad_ge_broadside (lambda d theta : ℝ) (N : ℤ)
    (hl : 0 < lambda) (hd : 0 < d) (hN : 1 ≤ N) (hθ : |theta| < Real.pi / 2) :
    HPBW_broadside_rad lambda N d ≤ HPBW_rad lambda N d theta ∧
      HPBW_broadside_rad lambda N d = 2 * angle_resolution_limit lambda N d ∧
      0 < 2 * angle_resolution_limit lambda N d := by
  have hN1 : (1 : ℝ) ≤ (N : ℝ) := by exact_mod_cast hN
  have hNd : 0 < (N : ℝ) * d := mul_pos (by linarith) hd
  have hθ' := abs_lt.mp hθ
  have hcos : 0 < Real.cos theta :=
    Real.cos_pos_of_mem_Ioo ⟨by linarith [hθ'.1], hθ'.2⟩
  have hcos1 : Real.cos theta ≤ 1 := Real.cos_le_one theta
  have hb : HPBW_broadside_rad lambda N d = 2 * lambda / ((N : ℝ) * d) := by
    unfold HPBW_broadside_rad
    norm_num
  have hh : HPBW_rad lambda N d theta
      = 2 * lambda / ((N : ℝ) * d * Real.cos theta) := by
    unfold HPBW_rad
    norm_num
  have hr : angle_resolution_limit lambda N d = lambda / ((N : ℝ) * d) := rfl
  refine ⟨?_, ?_, ?_⟩
  · rw [hb, hh]
    apply div_le_div_of_nonneg_left (by linarith) (mul_pos hNd hcos)
    calc (N : ℝ) * d * Real.cos theta ≤ (N : ℝ) * d * 1 :=
          mul_le_mul_of_nonneg_left hcos1 hNd.le
      _ = (N : ℝ) * d := mul_one _
  · rw [hb, hr]
    ring
  · rw [hr]
    exact mul_pos (by norm_num) (div_pos hl hNd)

/-- C20, evaluated at `λ = 1, d = 0.5, N = 8, θ = 0`. -/
theorem HPBW_rad_ge_broadside_witness :
    (0 : ℝ) < 1 ∧ (0 : ℝ) < 0.5 ∧ (1 : ℤ) ≤ 8 ∧ |(0 : ℝ)| < Real.pi / 2 ∧
      HPBW_broadside_rad 1 8 0.5 ≤ HPBW_rad 1 8 0.5 0 ∧
      HPBW_broadside_rad 1 8 0.5 = 2 * angle_resolution_limit 1 8 0.5 ∧
      0 < 2 * angle_resolution_limit 1 8 0.5 :=
  have hp : 0 < Real.pi := Real.pi_pos
  have hθ : |(0 : ℝ)| < Real.pi / 2 := by
    rw [abs_zero]
    linarith
  ⟨by norm_num, by norm_num, by decide, hθ,
    HPBW_rad_ge_broadside 1 0.5 0 8 (by norm_num) (by norm_num) (by decide) hθ⟩

end aesa_1d
